import Mathlib

/-!
Verification of the resource-binding core of `rendertoy` (`src/shader.rs`):
the resolved uniform value model, the asynchronous bundle resolver, the
uniform flattener, the reflection-driven descriptor binder and the dispatch
computation of `compute_tex`.

Machine conventions of the embedding:
* `f32` values are represented by their IEEE-754 binary32 bit patterns as
  `Nat` (< 2^32); the target is little-endian, so `f32::to_ne_bytes` is the
  little-endian byte decomposition of the bit pattern.
* GPU handles (`vk::DescriptorSet`, `vk::ImageView`, `vk::Buffer`,
  `vk::Image`) are opaque and represented by `Nat` identifiers.
* Fallible paths (Rust panics via `expect`/`unimplemented!`/slice indexing,
  and `Result` errors) are represented with `Option`/`Except`.
-/

namespace Rendertoy

/-- Exponent of the leading binary digit: `floorLog2Aux fuel n` is `⌊log₂ n⌋`
for `n ≥ 1` whenever `fuel ≥ n`; fuel makes the recursion structural. -/
def floorLog2Aux : Nat → Nat → Nat
  | 0, _ => 0
  | fuel + 1, n => if n ≤ 1 then 0 else 1 + floorLog2Aux fuel (n / 2)

/-- `⌊log₂ n⌋` for `n ≥ 1` (0 at 0). -/
def floorLog2 (n : Nat) : Nat := floorLog2Aux n n

/-- IEEE-754 binary32 bit pattern of a natural number (the Rust cast
`n as f32` for `n : u32`), round to nearest, ties to even.  Exact when
`n < 2^24`; u32 inputs never reach the infinity range. -/
def natToF32 (n : Nat) : Nat :=
  if n = 0 then 0
  else
    let k := floorLog2 n
    if k ≤ 23 then
      (127 + k) * 2 ^ 23 + (n * 2 ^ (23 - k) - 2 ^ 23)
    else
      let sh := k - 23
      let q := n / 2 ^ sh
      let r := n % 2 ^ sh
      let q2 := if 2 * r > 2 ^ sh ∨ (2 * r = 2 ^ sh ∧ q % 2 = 1) then q + 1 else q
      if q2 = 2 ^ 24 then (127 + k + 1) * 2 ^ 23
      else (127 + k) * 2 ^ 23 + (q2 - 2 ^ 23)

/-- Bit pattern of `1.0f32 / x` for a positive normal `x` given by its bit
pattern (the only inputs the flattener produces: texture dimensions cast
from positive `u32`), round to nearest, ties to even. -/
def f32Inv (bits : Nat) : Nat :=
  let e := bits / 2 ^ 23
  let M := bits % 2 ^ 23 + 2 ^ 23
  if M = 2 ^ 23 then (254 - e) * 2 ^ 23
  else
    let q := 2 ^ 47 / M
    let r := 2 ^ 47 % M
    let q2 := if 2 * r > M ∨ (2 * r = M ∧ q % 2 = 1) then q + 1 else q
    if q2 = 2 ^ 24 then (254 - e) * 2 ^ 23
    else (253 - e) * 2 ^ 23 + (q2 - 2 ^ 23)

/-- `f32::to_ne_bytes` on the (little-endian) target: the 4 bytes of the bit
pattern, least significant first. -/
def to_ne_bytes (bits : Nat) : List Nat :=
  [bits % 256, bits / 2 ^ 8 % 256, bits / 2 ^ 16 % 256, bits / 2 ^ 24 % 256]

/-- Modelled from the spec: the output-texture key (external collaborator
`crate::texture::TextureKey`); only its dimensions are consumed by the core. -/
structure TextureKey where
  width : Nat
  height : Nat
deriving DecidableEq

/-- Modelled from the spec: a concrete GPU texture resource handle (external
collaborator `crate::texture::Texture`); the core reads its key (dimensions),
its image view and its image. -/
structure Texture where
  key : TextureKey
  view : Nat
  image : Nat
deriving DecidableEq

/-- Modelled from the spec: a concrete GPU buffer resource handle (external
collaborator `crate::buffer::Buffer`). -/
structure Buffer where
  buffer_id : Nat
deriving DecidableEq

/-- `ResolvedShaderUniformValue` (`shader.rs`, generated by
`def_shader_uniform_types!`): the value model after asset references have
been awaited.  Asset variants carry the awaited concrete value; the bundle
variants carry resolved bundles (`ResolvedShaderUniformBundle`). -/
inductive ResolvedShaderUniformValue where
  | Float32 (v : Nat)
  | Uint32 (v : Nat)
  | Int32 (v : Int)
  | Ivec2 (x y : Int)
  | Vec4 (x y z w : Nat)
  | Bundle (b : List (String × ResolvedShaderUniformValue))
  | Float32Asset (v : Nat)
  | Uint32Asset (v : Nat)
  | UsizeAsset (v : Nat)
  | TextureAsset (t : Texture)
  | BufferAsset (b : Buffer)
  | BundleAsset (b : List (String × ResolvedShaderUniformValue))

/-- `ResolvedShaderUniformHolder`: a named resolved value.  The `name` and
`value` struct fields are the two components of the pair. -/
abbrev ResolvedShaderUniformHolder := String × ResolvedShaderUniformValue

/-- `PlumberEvent` (`shader.rs`): the flattener's event stream alphabet. -/
inductive PlumberEvent where
  | SetUniform (name : String) (value : ResolvedShaderUniformValue)
  | EnterScope
  | LeaveScope

/-- The `_size` helper uniform the flattener emits for a texture asset:
`(width as f32, height as f32, 1.0 / width as f32, 1.0 / height as f32)`. -/
def tex_size_uniform (key : TextureKey) : ResolvedShaderUniformValue :=
  ResolvedShaderUniformValue.Vec4
    (natToF32 key.width) (natToF32 key.height)
    (f32Inv (natToF32 key.width)) (f32Inv (natToF32 key.height))

/-- Body of the first loop of `flatten_uniforms`: the events emitted for one
holder in the non-bundle phase.  Bundle-valued holders are skipped, a texture
asset emits its `_size` vector and then itself, anything else emits a single
`SetUniform`. -/
def emit_non_bundle (h : ResolvedShaderUniformHolder) : List PlumberEvent :=
  match h with
  | (_, ResolvedShaderUniformValue.Bundle _) => []
  | (_, ResolvedShaderUniformValue.BundleAsset _) => []
  | (name, ResolvedShaderUniformValue.TextureAsset value) =>
      [PlumberEvent.SetUniform (name ++ "_size") (tex_size_uniform value.key),
       PlumberEvent.SetUniform name (ResolvedShaderUniformValue.TextureAsset value)]
  | (name, v) => [PlumberEvent.SetUniform name v]

/-- First loop of `flatten_uniforms`: every holder in order, emitting only
for non-bundle values. -/
def flatten_non_bundle : List ResolvedShaderUniformHolder → List PlumberEvent
  | [] => []
  | h :: rest => emit_non_bundle h ++ flatten_non_bundle rest

/-- Second loop of `flatten_uniforms`: every bundle-valued holder in order
emits `EnterScope`, the recursive flattening of the nested bundle (its
non-bundle phase followed by its bundle phase), then `LeaveScope`. -/
def flatten_bundles : List ResolvedShaderUniformHolder → List PlumberEvent
  | [] => []
  | (_, ResolvedShaderUniformValue.Bundle b) :: rest =>
      (PlumberEvent.EnterScope :: ((flatten_non_bundle b ++ flatten_bundles b) ++ [PlumberEvent.LeaveScope]))
        ++ flatten_bundles rest
  | (_, ResolvedShaderUniformValue.BundleAsset b) :: rest =>
      (PlumberEvent.EnterScope :: ((flatten_non_bundle b ++ flatten_bundles b) ++ [PlumberEvent.LeaveScope]))
        ++ flatten_bundles rest
  | _ :: rest => flatten_bundles rest

/-- `flatten_uniforms` (`shader.rs:781`): non-bundle holders first, then the
bundle-valued holders. -/
def flatten_uniforms (uniforms : List ResolvedShaderUniformHolder) : List PlumberEvent :=
  flatten_non_bundle uniforms ++ flatten_bundles uniforms

/-- The scope event group a single holder contributes in the bundle phase:
`EnterScope`, the nested flattening, `LeaveScope` for bundle values, nothing
otherwise. -/
def scope_group (h : ResolvedShaderUniformHolder) : List PlumberEvent :=
  match h with
  | (_, ResolvedShaderUniformValue.Bundle b) =>
      PlumberEvent.EnterScope :: (flatten_uniforms b ++ [PlumberEvent.LeaveScope])
  | (_, ResolvedShaderUniformValue.BundleAsset b) =>
      PlumberEvent.EnterScope :: (flatten_uniforms b ++ [PlumberEvent.LeaveScope])
  | _ => []

/-- Whether a resolved value is bundle-valued (`Bundle` or `BundleAsset`). -/
def is_bundle_value : ResolvedShaderUniformValue → Bool
  | ResolvedShaderUniformValue.Bundle _ => true
  | ResolvedShaderUniformValue.BundleAsset _ => true
  | _ => false

/-- Whether a resolved value is one of the literal (non-asset, non-bundle)
variants of the value model. -/
def is_literal_value : ResolvedShaderUniformValue → Bool
  | ResolvedShaderUniformValue.Float32 _ => true
  | ResolvedShaderUniformValue.Uint32 _ => true
  | ResolvedShaderUniformValue.Int32 _ => true
  | ResolvedShaderUniformValue.Ivec2 _ _ => true
  | ResolvedShaderUniformValue.Vec4 _ _ _ _ => true
  | _ => false

/-- The work-group count `compute_tex` records (`shader.rs:1019-1022`):
`cmd_dispatch(dispatch_size.0 / 8, dispatch_size.1 / 8, 1)` where
`dispatch_size = (key.width, key.height)`. -/
def compute_tex_work_groups (key : TextureKey) : Nat × Nat × Nat :=
  (key.width / 8, key.height / 8, 1)

/-- Modelled from the spec: the work-group count the spec prescribes, "the
output image's dimensions divided by the shader's work-group size (8, 8),
rounding up". -/
def spec_work_groups (key : TextureKey) : Nat × Nat × Nat :=
  ((key.width + 7) / 8, (key.height + 7) / 8, 1)

/-! ## Reflection-driven binder (`update_descriptor_sets`, `shader.rs:847`) -/

/-- Modelled from the spec: the descriptor kinds of the shader reflection
contract (spirv-reflect `ReflectDescriptorType`); `Unsupported` stands for
every kind the binder does not implement. -/
inductive ReflectDescriptorType where
  | UniformBuffer
  | StorageImage
  | Unsupported
deriving DecidableEq

/-- Modelled from the spec: a named member of a uniform block with its byte
offset and size (spirv-reflect block member reflection). -/
structure ReflBlockMember where
  name : String
  absolute_offset : Nat
  size : Nat

/-- Modelled from the spec: the block layout of a uniform-block binding
(total byte size plus named members). -/
structure ReflBlockVariable where
  size : Nat
  members : List ReflBlockMember

/-- Modelled from the spec: one descriptor binding of the shader reflection:
binding index, descriptor kind, declared name, block layout. -/
structure ReflDescriptorBinding where
  binding : Nat
  descriptor_type : ReflectDescriptorType
  name : String
  block : ReflBlockVariable

/-- Modelled from the spec: one descriptor set of the shader reflection. -/
structure ReflDescriptorSet where
  bindings : List ReflDescriptorBinding

/-- The Vulkan descriptor types the binder writes. -/
inductive VkDescriptorType where
  | UNIFORM_BUFFER_DYNAMIC
  | STORAGE_IMAGE
deriving DecidableEq

/-- Payload of a `vk::WriteDescriptorSet`: either a buffer info
(`buffer`, `range`) or an image info (layout `GENERAL`, `image_view`). -/
inductive DescriptorWriteInfo where
  | BufferInfo (buffer : Nat) (range : Nat)
  | ImageInfo (image_view : Nat)
deriving DecidableEq

/-- A recorded `vk::WriteDescriptorSet` (destination set and binding,
descriptor type, payload; `dst_array_element` is always 0). -/
structure WriteDescriptorSet where
  dst_set : Nat
  dst_binding : Nat
  descriptor_type : VkDescriptorType
  info : DescriptorWriteInfo
deriving DecidableEq

/-- Modelled from the spec: the per-frame uniform-buffer arena
(`vk_frame().uniforms`), a bump allocator over one buffer:
`allocate(size) -> (buffer_handle, offset, writable_byte_range)`. -/
structure UniformArena where
  buffer : Nat
  cursor : Nat
deriving DecidableEq

/-- Arena allocation: returns the buffer handle, the region's byte offset and
a fresh writable region of `bytes` bytes (unwritten bytes are `none`), and
advances the cursor. -/
def UniformArena.allocate (a : UniformArena) (bytes : Nat) :
    (Nat × Nat × List (Option Nat)) × UniformArena :=
  ((a.buffer, a.cursor, List.replicate bytes none), ⟨a.buffer, a.cursor + bytes⟩)

/-- `dst_mem.copy_from_slice(bytes)` for the subslice of `region` starting at
`off`: overwrite `bytes.length` bytes of `region` at `off`. -/
def copy_into (region : List (Option Nat)) (off : Nat) (bytes : List Nat) :
    List (Option Nat) :=
  region.take off ++ bytes.map some ++ region.drop (off + bytes.length)

/-- Writing one block member (`shader.rs:872-892`): take the member's
subslice (panic — `none` — if it exceeds the region), then copy the value's
native bytes. `copy_from_slice` panics unless the value's byte size equals
the member's declared size; any value kind other than
`Float32`/`Float32Asset`/`Vec4` hits `unimplemented!()`. -/
def write_member (region : List (Option Nat)) (m : ReflBlockMember)
    (v : ResolvedShaderUniformValue) : Option (List (Option Nat)) :=
  if m.absolute_offset + m.size ≤ region.length then
    match v with
    | ResolvedShaderUniformValue.Float32 value
    | ResolvedShaderUniformValue.Float32Asset value =>
        if (to_ne_bytes value).length = m.size then
          some (copy_into region m.absolute_offset (to_ne_bytes value))
        else none
    | ResolvedShaderUniformValue.Vec4 x y z w =>
        if (to_ne_bytes x ++ to_ne_bytes y ++ to_ne_bytes z ++ to_ne_bytes w).length = m.size then
          some (copy_into region m.absolute_offset
            (to_ne_bytes x ++ to_ne_bytes y ++ to_ne_bytes z ++ to_ne_bytes w))
        else none
    | _ => none
  else none

/-- The member loop of a uniform-block binding (`shader.rs:870-894`): for
each member in declaration order, if the flat map holds a value under the
member's name, write it into the region. -/
def write_block_members (uniforms : String → Option ResolvedShaderUniformValue) :
    List ReflBlockMember → List (Option Nat) → Option (List (Option Nat))
  | [], region => some region
  | m :: ms, region =>
      match uniforms m.name with
      | none => write_block_members uniforms ms region
      | some v =>
          match write_member region m v with
          | none => none
          | some region2 => write_block_members uniforms ms region2

/-- The binder's accumulated observable state: the arena, the descriptor
writes and dynamic offsets pushed so far, and for each uniform-block
allocation the `(offset, bytes)` actually written through the arena's
writable range. -/
structure BinderState where
  arena : UniformArena
  ds_writes : List WriteDescriptorSet
  ds_offsets : List Nat
  arena_written : List (Nat × List (Option Nat))
deriving DecidableEq

/-- One iteration of the binding loop of `update_descriptor_sets`
(`shader.rs:859-933`), at destination set `ds`. A uniform-buffer binding
allocates `block.size` arena bytes, fills members from the flat map, pushes
the dynamic offset and a `UNIFORM_BUFFER_DYNAMIC` write; a storage-image
binding pushes a `STORAGE_IMAGE` write if the flat map holds a texture asset
under the binding's name; other kinds only log. -/
def process_binding (uniforms : String → Option ResolvedShaderUniformValue)
    (ds : Nat) (st : BinderState) (b : ReflDescriptorBinding) : Option BinderState :=
  match b.descriptor_type with
  | ReflectDescriptorType.UniformBuffer =>
      let buffer_bytes := b.block.size
      let alloc := st.arena.allocate buffer_bytes
      let buffer_handle := alloc.1.1
      let buffer_offset := alloc.1.2.1
      let buffer_contents := alloc.1.2.2
      match write_block_members uniforms b.block.members buffer_contents with
      | none => none
      | some contents =>
          some ⟨alloc.2,
                st.ds_writes ++ [⟨ds, b.binding, VkDescriptorType.UNIFORM_BUFFER_DYNAMIC,
                                  DescriptorWriteInfo.BufferInfo buffer_handle buffer_bytes⟩],
                st.ds_offsets ++ [buffer_offset],
                st.arena_written ++ [(buffer_offset, contents)]⟩
  | ReflectDescriptorType.StorageImage =>
      match uniforms b.name with
      | some (ResolvedShaderUniformValue.TextureAsset value) =>
          some { st with
                 ds_writes := st.ds_writes ++
                   [⟨ds, b.binding, VkDescriptorType.STORAGE_IMAGE,
                     DescriptorWriteInfo.ImageInfo value.view⟩] }
      | _ => some st
  | ReflectDescriptorType.Unsupported => some st

/-- The inner binding loop over one reflected descriptor set. -/
def process_bindings (uniforms : String → Option ResolvedShaderUniformValue)
    (ds : Nat) : List ReflDescriptorBinding → BinderState → Option BinderState
  | [], st => some st
  | b :: bs, st =>
      match process_binding uniforms ds st b with
      | none => none
      | some st2 => process_bindings uniforms ds bs st2

/-- The outer loop of `update_descriptor_sets` over the reflected descriptor
sets.  Faithful to `shader.rs:858`: the destination set is
`descriptor_sets[0]` for EVERY reflected set (the set index of the loop is
unused); indexing an empty slice is a panic (`none`). -/
def update_descriptor_sets_go (uniforms : String → Option ResolvedShaderUniformValue)
    (descriptor_sets : List Nat) :
    List ReflDescriptorSet → BinderState → Option BinderState
  | [], st => some st
  | dset :: rest, st =>
      match descriptor_sets[0]? with
      | none => none
      | some ds =>
          match process_bindings uniforms ds dset.bindings st with
          | none => none
          | some st2 => update_descriptor_sets_go uniforms descriptor_sets rest st2

/-- `update_descriptor_sets` (`shader.rs:847`): scan the reflected descriptor
sets, producing the dynamic offsets, the batched descriptor writes and the
bytes written into the arena, starting from an empty write list. -/
def update_descriptor_sets (refl : List ReflDescriptorSet)
    (descriptor_sets : List Nat)
    (uniforms : String → Option ResolvedShaderUniformValue)
    (arena : UniformArena) : Option BinderState :=
  update_descriptor_sets_go uniforms descriptor_sets refl ⟨arena, [], [], []⟩

/-! ## The flat uniform map built by `compute_tex` (`shader.rs:964-969`) -/

/-- `HashMap::insert` on the model of the flat uniform map. -/
def insert_uniform (m : String → Option ResolvedShaderUniformValue)
    (name : String) (value : ResolvedShaderUniformValue) :
    String → Option ResolvedShaderUniformValue :=
  fun k => if k = name then some value else m k

/-- The sink `compute_tex` drains the flattener into: `SetUniform` inserts
into the map, scope events are ignored. -/
def apply_event (m : String → Option ResolvedShaderUniformValue) :
    PlumberEvent → (String → Option ResolvedShaderUniformValue)
  | PlumberEvent.SetUniform name value => insert_uniform m name value
  | _ => m

/-- The flat uniform map built from an event stream, starting empty. -/
def build_flat_uniforms (events : List PlumberEvent) :
    String → Option ResolvedShaderUniformValue :=
  events.foldl apply_event (fun _ => none)

/-- The flat uniform map `compute_tex` builds from a resolved bundle's
flattened event stream. -/
def compute_tex_flat_uniforms (uniforms : List ResolvedShaderUniformHolder) :
    String → Option ResolvedShaderUniformValue :=
  build_flat_uniforms (flatten_uniforms uniforms)

/-! ## Async resolver (`resolve`, `shader.rs:137-152`)

The unresolved value model holds `SnoozyRef` asset handles (represented by
`Nat` identifiers).  The external asset graph (`ctx.get`) is modelled as a
family of lookup functions, one per asset payload type, each returning
`Except` on computation failure.  The Rust `resolve` spawns one task per
holder and `try_join_all`s them; the join reassembles results by original
index, so completion order of the independent tasks is unobservable and the
embedding is their deterministic join.  A `fuel` bound limits the
`BundleAsset` indirection depth (the Rust recursion is unbounded there); the
theorems hold for every fuel. -/

/-- `ShaderUniformValue` (`shader.rs:74-87`): the unresolved value model.
Asset variants carry the `SnoozyRef` handle identifier. -/
inductive ShaderUniformValue where
  | Float32 (v : Nat)
  | Uint32 (v : Nat)
  | Int32 (v : Int)
  | Ivec2 (x y : Int)
  | Vec4 (x y z w : Nat)
  | Bundle (b : List (String × ShaderUniformValue))
  | Float32Asset (r : Nat)
  | Uint32Asset (r : Nat)
  | UsizeAsset (r : Nat)
  | TextureAsset (r : Nat)
  | BufferAsset (r : Nat)
  | BundleAsset (r : Nat)

/-- `ShaderUniformHolder` without its `shallow_hash` field: the hash is an
eager cache key over the unresolved value, never read by the resolver or any
code under verification, so it is omitted from the embedding. -/
abbrev ShaderUniformHolder := String × ShaderUniformValue

/-- Modelled from the spec: the memoized asset graph's
`get(handle) -> awaited Result` contract, one lookup family per payload
type. -/
structure Context where
  f32_assets : Nat → Except String Nat
  u32_assets : Nat → Except String Nat
  usize_assets : Nat → Except String Nat
  texture_assets : Nat → Except String Texture
  buffer_assets : Nat → Except String Buffer
  bundle_assets : Nat → Except String (List (String × ShaderUniformValue))

mutual

/-- `ShaderUniformValue::resolve` (`shader.rs:52-62`, macro-generated):
literals clone, asset variants await the asset graph, `Bundle` recursively
resolves its elements, `BundleAsset` awaits the bundle and then resolves
it. -/
def ShaderUniformValue.resolve (fuel : Nat) (ctx : Context) :
    ShaderUniformValue → Except String ResolvedShaderUniformValue
  | ShaderUniformValue.Float32 v => Except.ok (ResolvedShaderUniformValue.Float32 v)
  | ShaderUniformValue.Uint32 v => Except.ok (ResolvedShaderUniformValue.Uint32 v)
  | ShaderUniformValue.Int32 v => Except.ok (ResolvedShaderUniformValue.Int32 v)
  | ShaderUniformValue.Ivec2 x y => Except.ok (ResolvedShaderUniformValue.Ivec2 x y)
  | ShaderUniformValue.Vec4 x y z w => Except.ok (ResolvedShaderUniformValue.Vec4 x y z w)
  | ShaderUniformValue.Bundle b =>
      (resolve fuel ctx b).map ResolvedShaderUniformValue.Bundle
  | ShaderUniformValue.Float32Asset r =>
      (ctx.f32_assets r).map ResolvedShaderUniformValue.Float32Asset
  | ShaderUniformValue.Uint32Asset r =>
      (ctx.u32_assets r).map ResolvedShaderUniformValue.Uint32Asset
  | ShaderUniformValue.UsizeAsset r =>
      (ctx.usize_assets r).map ResolvedShaderUniformValue.UsizeAsset
  | ShaderUniformValue.TextureAsset r =>
      (ctx.texture_assets r).map ResolvedShaderUniformValue.TextureAsset
  | ShaderUniformValue.BufferAsset r =>
      (ctx.buffer_assets r).map ResolvedShaderUniformValue.BufferAsset
  | ShaderUniformValue.BundleAsset r =>
      match fuel with
      | 0 => Except.error "bundle asset indirection limit"
      | fuel2 + 1 =>
          match ctx.bundle_assets r with
          | Except.error e => Except.error e
          | Except.ok b => (resolve fuel2 ctx b).map ResolvedShaderUniformValue.BundleAsset

/-- `ShaderUniformHolder::resolve` (`shader.rs:126-131`): resolve the value,
keep the name. -/
def ShaderUniformHolder.resolve (fuel : Nat) (ctx : Context) :
    ShaderUniformHolder → Except String ResolvedShaderUniformHolder
  | (name, v) => (ShaderUniformValue.resolve fuel ctx v).map (fun rv => (name, rv))

/-- `resolve` (`shader.rs:137-152`): resolve every holder of the bundle
(one concurrent task each) and `try_join_all` the results, reassembled in
original input order; the first failure aborts the whole resolution. -/
def resolve (fuel : Nat) (ctx : Context) :
    List ShaderUniformHolder → Except String (List ResolvedShaderUniformHolder)
  | [] => Except.ok []
  | u :: rest =>
      match ShaderUniformHolder.resolve fuel ctx u with
      | Except.error e => Except.error e
      | Except.ok r =>
          match resolve fuel ctx rest with
          | Except.error e => Except.error e
          | Except.ok rs => Except.ok (r :: rs)

end

/-! ## Derived observations used by the statements -/

/-- Whether an event is `EnterScope`. -/
def is_enter_event : PlumberEvent → Bool
  | PlumberEvent.EnterScope => true
  | _ => false

/-- Whether an event is `LeaveScope`. -/
def is_leave_event : PlumberEvent → Bool
  | PlumberEvent.LeaveScope => true
  | _ => false

/-- Whether an event is a `SetUniform`. -/
def is_set_event : PlumberEvent → Bool
  | PlumberEvent.SetUniform _ _ => true
  | _ => false

/-- Number of `EnterScope` events in a stream. -/
def enter_count (es : List PlumberEvent) : Nat := es.countP is_enter_event

/-- Number of `LeaveScope` events in a stream. -/
def leave_count (es : List PlumberEvent) : Nat := es.countP is_leave_event

/-- Total number of bundle-valued holders in a resolved bundle, at all
nesting levels combined. -/
def bundle_holder_count : List ResolvedShaderUniformHolder → Nat
  | [] => 0
  | (_, ResolvedShaderUniformValue.Bundle b) :: rest =>
      1 + bundle_holder_count b + bundle_holder_count rest
  | (_, ResolvedShaderUniformValue.BundleAsset b) :: rest =>
      1 + bundle_holder_count b + bundle_holder_count rest
  | _ :: rest => bundle_holder_count rest

/-- Bundle nesting depth of a resolved bundle: 0 when no holder is
bundle-valued, otherwise one more than the deepest nested bundle. -/
def bundle_depth : List ResolvedShaderUniformHolder → Nat
  | [] => 0
  | (_, ResolvedShaderUniformValue.Bundle b) :: rest =>
      max (1 + bundle_depth b) (bundle_depth rest)
  | (_, ResolvedShaderUniformValue.BundleAsset b) :: rest =>
      max (1 + bundle_depth b) (bundle_depth rest)
  | _ :: rest => bundle_depth rest

/-- Scan of the scope depth along an event stream starting at depth `d`:
returns `(final depth, maximum depth reached, minimum depth reached)`, the
start depth included in the extrema. -/
def depth_scan : List PlumberEvent → Int → Int × Int × Int
  | [], d => (d, d, d)
  | e :: es, d =>
      let d2 : Int :=
        match e with
        | PlumberEvent.EnterScope => d + 1
        | PlumberEvent.LeaveScope => d - 1
        | _ => d
      let r := depth_scan es d2
      (r.1, max d r.2.1, min d r.2.2)

/-- The value a single event sets under `name`, if any. -/
def set_event_value (name : String) : PlumberEvent → Option ResolvedShaderUniformValue
  | PlumberEvent.SetUniform n v => if n = name then some v else none
  | _ => none

/-- The value of the last `SetUniform` event under `name` in a stream. -/
def last_set_value (name : String) (es : List PlumberEvent) :
    Option ResolvedShaderUniformValue :=
  es.reverse.findSome? (set_event_value name)

/-- The block-member value kinds `update_descriptor_sets` recognizes
(everything else hits `unimplemented!()`). -/
def recognized_block_value : ResolvedShaderUniformValue → Bool
  | ResolvedShaderUniformValue.Float32 _ => true
  | ResolvedShaderUniformValue.Float32Asset _ => true
  | ResolvedShaderUniformValue.Vec4 _ _ _ _ => true
  | _ => false

/-- Whether the flat map holds a texture-asset value under `name`. -/
def holds_texture_under (uniforms : String → Option ResolvedShaderUniformValue)
    (name : String) : Bool :=
  match uniforms name with
  | some (ResolvedShaderUniformValue.TextureAsset _) => true
  | _ => false

/-! ## Structure of the flattened event stream -/

theorem flatten_non_bundle_append (xs ys : List ResolvedShaderUniformHolder) :
    flatten_non_bundle (xs ++ ys) = flatten_non_bundle xs ++ flatten_non_bundle ys := by
  induction xs with
  | nil => simp [flatten_non_bundle]
  | cons h t ih => simp [flatten_non_bundle, ih]

theorem flatten_non_bundle_eq_flatMap (us : List ResolvedShaderUniformHolder) :
    flatten_non_bundle us = us.flatMap emit_non_bundle := by
  induction us with
  | nil => simp [flatten_non_bundle]
  | cons h t ih => simp [flatten_non_bundle, ih]

theorem emit_non_bundle_eq_nil (h : ResolvedShaderUniformHolder)
    (hb : is_bundle_value h.2 = true) : emit_non_bundle h = [] := by
  obtain ⟨n, v⟩ := h
  cases v <;> simp_all [is_bundle_value, emit_non_bundle]

theorem scope_group_eq_nil (h : ResolvedShaderUniformHolder)
    (hb : is_bundle_value h.2 = false) : scope_group h = [] := by
  obtain ⟨n, v⟩ := h
  cases v <;> simp_all [is_bundle_value, scope_group]

theorem flatMap_filter_of_nil {α β : Type} (p : α → Bool) (f : α → List β)
    (hf : ∀ a, p a = false → f a = []) (us : List α) :
    us.flatMap f = (us.filter p).flatMap f := by
  induction us with
  | nil => simp
  | cons a t ih =>
      cases hp : p a
      · simp [List.filter_cons, hp, ih, hf a hp]
      · simp [List.filter_cons, hp, ih]

theorem flatten_bundles_eq_flatMap (us : List ResolvedShaderUniformHolder) :
    flatten_bundles us = us.flatMap scope_group := by
  induction us using flatten_bundles.induct with
  | case1 => simp [flatten_bundles]
  | case2 n b rest ihb ihr =>
      simp [flatten_bundles, scope_group, flatten_uniforms, ihr]
  | case3 n b rest ihb ihr =>
      simp [flatten_bundles, scope_group, flatten_uniforms, ihr]
  | case4 h rest hnb hnba ih =>
      simp [flatten_bundles, scope_group, ih]

/-- C1: for the failing input of the dispatch claim. The code divides the
output dimensions by 8 with integer (floor) division, so a (1024, 768)
output dispatches (128, 96) work groups as claimed, but a (1023, 767) output
dispatches (127, 95), not the (128, 96) that division rounding up (the
spec's `spec_work_groups`) would give. -/
theorem compute_tex_work_groups_floors :
    compute_tex_work_groups ⟨1024, 768⟩ = (128, 96, 1)
  ∧ compute_tex_work_groups ⟨1023, 767⟩ = (127, 95, 1)
  ∧ spec_work_groups ⟨1023, 767⟩ = (128, 96, 1)
  ∧ compute_tex_work_groups ⟨1023, 767⟩ ≠ spec_work_groups ⟨1023, 767⟩ := by
  refine ⟨rfl, rfl, rfl, ?_⟩
  decide

/-- C3: `flatten_uniforms` is two-phase: first the event groups of the
non-bundle holders in original order, then the scope groups of the
bundle-valued holders in original order; and a bundle whose holders are all
literal flattens to exactly one `SetUniform` per holder, in input order,
with no scope events. -/
theorem flatten_uniforms_two_phase (us : List ResolvedShaderUniformHolder) :
    flatten_uniforms us
      = (us.filter (fun h => !is_bundle_value h.2)).flatMap emit_non_bundle
        ++ (us.filter (fun h => is_bundle_value h.2)).flatMap scope_group
  ∧ (us.all (fun h => is_literal_value h.2) = true →
      flatten_uniforms us = us.map (fun h => PlumberEvent.SetUniform h.1 h.2)) := by
  constructor
  · have h1 : flatten_non_bundle us
        = (us.filter (fun h => !is_bundle_value h.2)).flatMap emit_non_bundle := by
      rw [flatten_non_bundle_eq_flatMap]
      exact flatMap_filter_of_nil _ _
        (fun a ha => emit_non_bundle_eq_nil a (by simpa using ha)) us
    have h2 : flatten_bundles us
        = (us.filter (fun h => is_bundle_value h.2)).flatMap scope_group := by
      rw [flatten_bundles_eq_flatMap]
      exact flatMap_filter_of_nil _ _ (fun a ha => scope_group_eq_nil a ha) us
    rw [flatten_uniforms, h1, h2]
  · intro hall
    induction us with
    | nil => simp [flatten_uniforms, flatten_non_bundle, flatten_bundles]
    | cons h t ih =>
        obtain ⟨n, v⟩ := h
        simp only [List.all_cons, Bool.and_eq_true] at hall
        have ht := ih hall.2
        rw [flatten_uniforms] at ht ⊢
        have hv := hall.1
        cases v <;> simp_all [flatten_non_bundle, flatten_bundles, emit_non_bundle,
          is_literal_value]

/-- C3 witness: a concrete two-literal bundle flattens to exactly its two
`SetUniform` events in order. -/
theorem flatten_uniforms_two_phase_witness :
    ([(("a", ResolvedShaderUniformValue.Float32 5) : ResolvedShaderUniformHolder),
      ("b", ResolvedShaderUniformValue.Int32 (-2))].all
        (fun h => is_literal_value h.2) = true)
  ∧ flatten_uniforms
      [("a", ResolvedShaderUniformValue.Float32 5), ("b", ResolvedShaderUniformValue.Int32 (-2))]
      = [("a", ResolvedShaderUniformValue.Float32 5),
         ("b", ResolvedShaderUniformValue.Int32 (-2))].map
          (fun h => PlumberEvent.SetUniform h.1 h.2) :=
  ⟨by decide,
   (flatten_uniforms_two_phase _).2 (by decide)⟩

/-- C4: a texture-asset holder contributes exactly two events,
`SetUniform(name ++ "_size", Vec4(w, h, 1/w, 1/h))` immediately followed by
`SetUniform(name, texture)`, and they appear consecutively in that order in
the flattened stream of any bundle containing the holder. -/
theorem flatten_uniforms_texture_size_pair
    (pre post : List ResolvedShaderUniformHolder) (name : String) (t : Texture)
    (us : List ResolvedShaderUniformHolder)
    (hus : us = pre ++ (name, ResolvedShaderUniformValue.TextureAsset t) :: post) :
    emit_non_bundle (name, ResolvedShaderUniformValue.TextureAsset t)
      = [PlumberEvent.SetUniform (name ++ "_size") (tex_size_uniform t.key),
         PlumberEvent.SetUniform name (ResolvedShaderUniformValue.TextureAsset t)]
  ∧ ∃ a b, flatten_uniforms us
      = a ++ PlumberEvent.SetUniform (name ++ "_size") (tex_size_uniform t.key)
          :: PlumberEvent.SetUniform name (ResolvedShaderUniformValue.TextureAsset t)
          :: b := by
  subst hus
  refine ⟨rfl, flatten_non_bundle pre,
    flatten_non_bundle post
      ++ flatten_bundles (pre ++ (name, ResolvedShaderUniformValue.TextureAsset t) :: post), ?_⟩
  rw [flatten_uniforms, flatten_non_bundle_append]
  simp [flatten_non_bundle, emit_non_bundle]

/-- C4 witness: at the singleton bundle holding a texture named `"t"` of size
16×8, the flattened stream is the `_size` event immediately followed by the
texture event. -/
theorem flatten_uniforms_texture_size_pair_witness :
    emit_non_bundle ("t", ResolvedShaderUniformValue.TextureAsset ⟨⟨16, 8⟩, 3, 4⟩)
      = [PlumberEvent.SetUniform ("t" ++ "_size") (tex_size_uniform ⟨16, 8⟩),
         PlumberEvent.SetUniform "t" (ResolvedShaderUniformValue.TextureAsset ⟨⟨16, 8⟩, 3, 4⟩)]
  ∧ ∃ a b, flatten_uniforms [("t", ResolvedShaderUniformValue.TextureAsset ⟨⟨16, 8⟩, 3, 4⟩)]
      = a ++ PlumberEvent.SetUniform ("t" ++ "_size") (tex_size_uniform ⟨16, 8⟩)
          :: PlumberEvent.SetUniform "t"
              (ResolvedShaderUniformValue.TextureAsset ⟨⟨16, 8⟩, 3, 4⟩)
          :: b :=
  flatten_uniforms_texture_size_pair [] [] "t" ⟨⟨16, 8⟩, 3, 4⟩ _ rfl

/-! ## Scope balance and nesting depth (C5) -/

theorem enter_count_append (xs ys : List PlumberEvent) :
    enter_count (xs ++ ys) = enter_count xs + enter_count ys := by
  simp [enter_count, List.countP_append]

theorem leave_count_append (xs ys : List PlumberEvent) :
    leave_count (xs ++ ys) = leave_count xs + leave_count ys := by
  simp [leave_count, List.countP_append]

theorem enter_count_cons (e : PlumberEvent) (es : List PlumberEvent) :
    enter_count (e :: es) = enter_count es + (if is_enter_event e then 1 else 0) := by
  simp [enter_count, List.countP_cons]

theorem leave_count_cons (e : PlumberEvent) (es : List PlumberEvent) :
    leave_count (e :: es) = leave_count es + (if is_leave_event e then 1 else 0) := by
  simp [leave_count, List.countP_cons]

theorem enter_count_emit_non_bundle (h : ResolvedShaderUniformHolder) :
    enter_count (emit_non_bundle h) = 0 := by
  obtain ⟨n, v⟩ := h
  cases v <;>
    simp [emit_non_bundle, enter_count, List.countP_cons, List.countP_nil, is_enter_event]

theorem leave_count_emit_non_bundle (h : ResolvedShaderUniformHolder) :
    leave_count (emit_non_bundle h) = 0 := by
  obtain ⟨n, v⟩ := h
  cases v <;>
    simp [emit_non_bundle, leave_count, List.countP_cons, List.countP_nil, is_leave_event]

theorem enter_count_flatten_non_bundle (us : List ResolvedShaderUniformHolder) :
    enter_count (flatten_non_bundle us) = 0 := by
  induction us with
  | nil => simp [flatten_non_bundle, enter_count]
  | cons h t ih =>
      simp only [flatten_non_bundle]
      rw [enter_count_append, enter_count_emit_non_bundle, ih]

theorem leave_count_flatten_non_bundle (us : List ResolvedShaderUniformHolder) :
    leave_count (flatten_non_bundle us) = 0 := by
  induction us with
  | nil => simp [flatten_non_bundle, leave_count]
  | cons h t ih =>
      simp only [flatten_non_bundle]
      rw [leave_count_append, leave_count_emit_non_bundle, ih]

theorem enter_count_flatten_bundles (us : List ResolvedShaderUniformHolder) :
    enter_count (flatten_bundles us) = bundle_holder_count us := by
  induction us using flatten_bundles.induct with
  | case1 => simp [flatten_bundles, bundle_holder_count, enter_count]
  | case2 n b rest ihb ihr =>
      simp only [flatten_bundles, List.cons_append]
      rw [enter_count_cons, enter_count_append, enter_count_append, enter_count_append,
        enter_count_flatten_non_bundle, ihb, ihr]
      simp only [bundle_holder_count]
      simp [enter_count, is_enter_event, List.countP_cons, List.countP_nil]
      omega
  | case3 n b rest ihb ihr =>
      simp only [flatten_bundles, List.cons_append]
      rw [enter_count_cons, enter_count_append, enter_count_append, enter_count_append,
        enter_count_flatten_non_bundle, ihb, ihr]
      simp only [bundle_holder_count]
      simp [enter_count, is_enter_event, List.countP_cons, List.countP_nil]
      omega
  | case4 h rest hnb hnba ih =>
      simp [flatten_bundles, bundle_holder_count, ih]

theorem leave_count_flatten_bundles (us : List ResolvedShaderUniformHolder) :
    leave_count (flatten_bundles us) = bundle_holder_count us := by
  induction us using flatten_bundles.induct with
  | case1 => simp [flatten_bundles, bundle_holder_count, leave_count]
  | case2 n b rest ihb ihr =>
      simp only [flatten_bundles, List.cons_append]
      rw [leave_count_cons, leave_count_append, leave_count_append, leave_count_append,
        leave_count_flatten_non_bundle, ihb, ihr]
      simp only [bundle_holder_count]
      simp [leave_count, is_leave_event, List.countP_cons, List.countP_nil]
      omega
  | case3 n b rest ihb ihr =>
      simp only [flatten_bundles, List.cons_append]
      rw [leave_count_cons, leave_count_append, leave_count_append, leave_count_append,
        leave_count_flatten_non_bundle, ihb, ihr]
      simp only [bundle_holder_count]
      simp [leave_count, is_leave_event, List.countP_cons, List.countP_nil]
      omega
  | case4 h rest hnb hnba ih =>
      simp [flatten_bundles, bundle_holder_count, ih]

theorem depth_scan_bounds (es : List PlumberEvent) (d : Int) :
    (depth_scan es d).2.2 ≤ d ∧ d ≤ (depth_scan es d).2.1 := by
  cases es with
  | nil => simp [depth_scan]
  | cons e es =>
      simp only [depth_scan]
      exact ⟨min_le_left _ _, le_max_left _ _⟩

theorem depth_scan_append (xs ys : List PlumberEvent) (d : Int) :
    depth_scan (xs ++ ys) d
      = ((depth_scan ys (depth_scan xs d).1).1,
         max (depth_scan xs d).2.1 (depth_scan ys (depth_scan xs d).1).2.1,
         min (depth_scan xs d).2.2 (depth_scan ys (depth_scan xs d).1).2.2) := by
  induction xs generalizing d with
  | nil =>
      obtain ⟨hl, hm⟩ := depth_scan_bounds ys d
      simp [depth_scan, max_eq_right hm, min_eq_right hl]
  | cons e es ih =>
      cases e <;> simp [depth_scan, ih, max_assoc, min_assoc]

theorem depth_scan_flatten_non_bundle (us : List ResolvedShaderUniformHolder) (d : Int) :
    depth_scan (flatten_non_bundle us) d = (d, d, d) := by
  induction us generalizing d with
  | nil => simp [flatten_non_bundle, depth_scan]
  | cons h t ih =>
      obtain ⟨n, v⟩ := h
      cases v <;>
        simp [flatten_non_bundle, emit_non_bundle, depth_scan_append, depth_scan, ih]

theorem max_shift_helper (d a b : Int) (ha : 0 ≤ a) (hb : 0 ≤ b) :
    max d (max (d + 1 + a) (d + b)) = d + max (1 + a) b := by
  rcases le_total (1 + a) b with h | h
  · rw [max_eq_right h, max_eq_right (by omega : d + 1 + a ≤ d + b),
      max_eq_right (by omega : d ≤ d + b)]
  · rw [max_eq_left h, max_eq_left (by omega : d + b ≤ d + 1 + a),
      max_eq_right (by omega : d ≤ d + 1 + a)]
    omega

theorem depth_scan_flatten_bundles (us : List ResolvedShaderUniformHolder) (d : Int) :
    depth_scan (flatten_bundles us) d = (d, d + (bundle_depth us : Int), d) := by
  induction us using flatten_bundles.induct generalizing d with
  | case1 => simp [flatten_bundles, bundle_depth, depth_scan]
  | case2 n b rest ihb ihr =>
      have hcast : (bundle_depth ((n, ResolvedShaderUniformValue.Bundle b) :: rest) : Int)
          = max (1 + (bundle_depth b : Int)) (bundle_depth rest : Int) := by
        simp only [bundle_depth]
        push_cast
        rfl
      have hone : (d + 1) ≤ d + 1 + (bundle_depth b : Int) := by omega
      have h1 : depth_scan (flatten_non_bundle b ++ flatten_bundles b) (d + 1)
          = (d + 1, d + 1 + (bundle_depth b : Int), d + 1) := by
        rw [depth_scan_append, depth_scan_flatten_non_bundle, ihb]
        simp only [min_self]
        rw [max_eq_right hone]
      have hleave : depth_scan [PlumberEvent.LeaveScope] (d + 1) = (d, d + 1, d) := by
        simp only [depth_scan]
        refine Prod.ext ?_ (Prod.ext ?_ ?_)
        · show d + 1 - 1 = d
          omega
        · show max (d + 1) (d + 1 - 1) = d + 1
          exact max_eq_left (by omega)
        · show min (d + 1) (d + 1 - 1) = d
          rw [min_eq_right (by omega : d + 1 - 1 ≤ d + 1)]
          omega
      have h2 : depth_scan ((flatten_non_bundle b ++ flatten_bundles b)
            ++ [PlumberEvent.LeaveScope]) (d + 1)
          = (d, d + 1 + (bundle_depth b : Int), d) := by
        rw [depth_scan_append, h1, hleave]
        refine Prod.ext rfl (Prod.ext ?_ ?_)
        · show max (d + 1 + (bundle_depth b : Int)) (d + 1) = d + 1 + (bundle_depth b : Int)
          exact max_eq_left hone
        · show min (d + 1) d = d
          exact min_eq_right (by omega)
      simp only [flatten_bundles, List.cons_append]
      simp only [depth_scan]
      rw [depth_scan_append, h2, ihr, hcast]
      refine Prod.ext rfl (Prod.ext ?_ ?_)
      · show max d (max (d + 1 + (bundle_depth b : Int)) (d + (bundle_depth rest : Int)))
            = d + max (1 + (bundle_depth b : Int)) (bundle_depth rest : Int)
        exact max_shift_helper d _ _ (Int.natCast_nonneg _) (Int.natCast_nonneg _)
      · show min d (min d d) = d
        simp
  | case3 n b rest ihb ihr =>
      have hcast : (bundle_depth ((n, ResolvedShaderUniformValue.BundleAsset b) :: rest) : Int)
          = max (1 + (bundle_depth b : Int)) (bundle_depth rest : Int) := by
        simp only [bundle_depth]
        push_cast
        rfl
      have hone : (d + 1) ≤ d + 1 + (bundle_depth b : Int) := by omega
      have h1 : depth_scan (flatten_non_bundle b ++ flatten_bundles b) (d + 1)
          = (d + 1, d + 1 + (bundle_depth b : Int), d + 1) := by
        rw [depth_scan_append, depth_scan_flatten_non_bundle, ihb]
        simp only [min_self]
        rw [max_eq_right hone]
      have hleave : depth_scan [PlumberEvent.LeaveScope] (d + 1) = (d, d + 1, d) := by
        simp only [depth_scan]
        refine Prod.ext ?_ (Prod.ext ?_ ?_)
        · show d + 1 - 1 = d
          omega
        · show max (d + 1) (d + 1 - 1) = d + 1
          exact max_eq_left (by omega)
        · show min (d + 1) (d + 1 - 1) = d
          rw [min_eq_right (by omega : d + 1 - 1 ≤ d + 1)]
          omega
      have h2 : depth_scan ((flatten_non_bundle b ++ flatten_bundles b)
            ++ [PlumberEvent.LeaveScope]) (d + 1)
          = (d, d + 1 + (bundle_depth b : Int), d) := by
        rw [depth_scan_append, h1, hleave]
        refine Prod.ext rfl (Prod.ext ?_ ?_)
        · show max (d + 1 + (bundle_depth b : Int)) (d + 1) = d + 1 + (bundle_depth b : Int)
          exact max_eq_left hone
        · show min (d + 1) d = d
          exact min_eq_right (by omega)
      simp only [flatten_bundles, List.cons_append]
      simp only [depth_scan]
      rw [depth_scan_append, h2, ihr, hcast]
      refine Prod.ext rfl (Prod.ext ?_ ?_)
      · show max d (max (d + 1 + (bundle_depth b : Int)) (d + (bundle_depth rest : Int)))
            = d + max (1 + (bundle_depth b : Int)) (bundle_depth rest : Int)
        exact max_shift_helper d _ _ (Int.natCast_nonneg _) (Int.natCast_nonneg _)
      · show min d (min d d) = d
        simp
  | case4 h rest hnb hnba ih =>
      simp [flatten_bundles, bundle_depth, ih]

theorem depth_scan_fst_eq_counts (es : List PlumberEvent) (d : Int) :
    (depth_scan es d).1 = d + (enter_count es : Int) - (leave_count es : Int) := by
  induction es generalizing d with
  | nil => simp [depth_scan, enter_count, leave_count]
  | cons e es ih =>
      cases e <;>
        simp [depth_scan, enter_count, leave_count, List.countP_cons, is_enter_event,
          is_leave_event, ih] <;> omega

theorem depth_scan_min_le_take (es : List PlumberEvent) (d : Int) (n : Nat) :
    (depth_scan es d).2.2 ≤ (depth_scan (es.take n) d).1 := by
  induction es generalizing d n with
  | nil => simp [depth_scan]
  | cons e es ih =>
      cases n with
      | zero =>
          simp only [List.take_zero, depth_scan]
          exact min_le_left _ _
      | succ n =>
          cases e <;>
            · simp only [List.take_succ_cons, depth_scan]
              exact le_trans (min_le_right _ _) (ih _ n)

/-- C5: in the flattened stream of any resolved bundle, the number of
`EnterScope` events and the number of `LeaveScope` events both equal the
number of bundle-valued holders at all levels combined, no prefix has more
`LeaveScope` than `EnterScope` events, the stream ends back at depth 0, and
the maximum scope depth reached equals the bundle nesting depth of the
input. -/
theorem flatten_uniforms_scopes_balanced (us : List ResolvedShaderUniformHolder) :
    enter_count (flatten_uniforms us) = bundle_holder_count us
  ∧ leave_count (flatten_uniforms us) = bundle_holder_count us
  ∧ (∀ n : Nat, leave_count ((flatten_uniforms us).take n)
      ≤ enter_count ((flatten_uniforms us).take n))
  ∧ depth_scan (flatten_uniforms us) 0 = (0, (bundle_depth us : Int), 0) := by
  have hscan : depth_scan (flatten_uniforms us) 0 = (0, (bundle_depth us : Int), 0) := by
    rw [flatten_uniforms, depth_scan_append, depth_scan_flatten_non_bundle,
      depth_scan_flatten_bundles]
    refine Prod.ext rfl (Prod.ext ?_ ?_)
    · show max (0 : Int) (0 + (bundle_depth us : Int)) = (bundle_depth us : Int)
      rw [max_eq_right (by omega : (0 : Int) ≤ 0 + (bundle_depth us : Int))]
      omega
    · show min (0 : Int) (min 0 0) = 0
      simp
  refine ⟨?_, ?_, ?_, hscan⟩
  · rw [flatten_uniforms, enter_count_append, enter_count_flatten_non_bundle,
      enter_count_flatten_bundles]
    omega
  · rw [flatten_uniforms, leave_count_append, leave_count_flatten_non_bundle,
      leave_count_flatten_bundles]
    omega
  · intro n
    have hmin := depth_scan_min_le_take (flatten_uniforms us) 0 n
    rw [hscan, depth_scan_fst_eq_counts] at hmin
    simp only at hmin
    omega

/-! ## The flat uniform map (C10) -/

theorem findSome?_append_or {α β : Type} (l1 l2 : List α) (f : α → Option β) :
    (l1 ++ l2).findSome? f = (l1.findSome? f).or (l2.findSome? f) := by
  induction l1 with
  | nil => rfl
  | cons a t ih =>
      simp only [List.cons_append, List.findSome?_cons]
      cases f a <;> simp [ih, Option.or]

theorem findSome?_singleton {α β : Type} (e : α) (f : α → Option β) :
    [e].findSome? f = f e := by
  cases h : f e <;> simp [List.findSome?_cons, h]

theorem last_set_value_cons (name : String) (e : PlumberEvent) (es : List PlumberEvent) :
    last_set_value name (e :: es)
      = (last_set_value name es).or (set_event_value name e) := by
  simp only [last_set_value, List.reverse_cons]
  rw [findSome?_append_or, findSome?_singleton]

theorem set_event_value_or (m : String → Option ResolvedShaderUniformValue)
    (e : PlumberEvent) (name : String) :
    (set_event_value name e).or (m name) = apply_event m e name := by
  cases e with
  | SetUniform n v =>
      simp only [set_event_value, apply_event, insert_uniform]
      by_cases h : n = name
      · subst h
        simp
      · rw [if_neg h, if_neg (fun hh => h hh.symm)]
        rfl
  | EnterScope => rfl
  | LeaveScope => rfl

theorem foldl_apply_event (es : List PlumberEvent)
    (m : String → Option ResolvedShaderUniformValue) (name : String) :
    es.foldl apply_event m name = (last_set_value name es).or (m name) := by
  induction es generalizing m with
  | nil => rfl
  | cons e es ih =>
      rw [List.foldl_cons, ih, last_set_value_cons, Option.or_assoc, set_event_value_or]

/-- C10: the flat uniform map `compute_tex` builds from the flattener's
events holds, under each name, exactly the value of the last `SetUniform`
event emitted under that name (later writes overwrite earlier ones), and
`EnterScope`/`LeaveScope` events leave the map unchanged. -/
theorem compute_tex_flat_uniforms_last_write
    (us : List ResolvedShaderUniformHolder) (name : String) :
    compute_tex_flat_uniforms us name = last_set_value name (flatten_uniforms us)
  ∧ (∀ m : String → Option ResolvedShaderUniformValue,
      apply_event m PlumberEvent.EnterScope = m
      ∧ apply_event m PlumberEvent.LeaveScope = m) := by
  constructor
  · show build_flat_uniforms (flatten_uniforms us) name = _
    rw [build_flat_uniforms, foldl_apply_event]
    cases last_set_value name (flatten_uniforms us) <;> rfl
  · intro m
    exact ⟨rfl, rfl⟩

/-! ## Resolver order preservation and failure propagation (C6, C7) -/

/-- C6: a successful `resolve` returns one resolved holder per input holder,
in the same order: the name sequence of the output equals the name sequence
of the input (and in particular the lengths agree).  Completion order of the
per-holder tasks is unobservable: `try_join_all` reassembles results by
input index, which this deterministic join models. -/
theorem resolve_ok_names (fuel : Nat) (ctx : Context) (us : List ShaderUniformHolder)
    (rs : List ResolvedShaderUniformHolder) (h : resolve fuel ctx us = Except.ok rs) :
    rs.map Prod.fst = us.map Prod.fst ∧ rs.length = us.length := by
  induction us generalizing rs with
  | nil =>
      simp only [resolve, Except.ok.injEq] at h
      subst h
      simp
  | cons u t ih =>
      obtain ⟨n, v⟩ := u
      simp only [resolve] at h
      rcases hr : ShaderUniformHolder.resolve fuel ctx (n, v) with e | r
      · rw [hr] at h
        simp at h
      · rw [hr] at h
        rcases hrs : resolve fuel ctx t with e2 | rs2
        · rw [hrs] at h
          simp at h
        · rw [hrs] at h
          simp only [Except.ok.injEq] at h
          subst h
          have hname : r.1 = n := by
            simp only [ShaderUniformHolder.resolve] at hr
            rcases hv : ShaderUniformValue.resolve fuel ctx v with e3 | rv
            · rw [hv] at hr
              simp [Except.map] at hr
            · rw [hv] at hr
              simp only [Except.map, Except.ok.injEq] at hr
              rw [← hr]
          obtain ⟨ihm, ihl⟩ := ih rs2 hrs
          refine ⟨?_, ?_⟩
          · simp [List.map_cons, hname, ihm]
          · simp [ihl]

/-- C6 witness: resolving a concrete two-holder bundle (one float asset, one
literal) succeeds and preserves the names `["x", "y"]` and the length. -/
theorem resolve_ok_names_witness :
    resolve 1
      ⟨fun _ => Except.ok 7, fun _ => Except.error "u32", fun _ => Except.error "usize",
       fun _ => Except.error "tex", fun _ => Except.error "buf", fun _ => Except.error "bundle"⟩
      [("x", ShaderUniformValue.Float32Asset 0), ("y", ShaderUniformValue.Float32 9)]
      = Except.ok [("x", ResolvedShaderUniformValue.Float32Asset 7),
                   ("y", ResolvedShaderUniformValue.Float32 9)]
  ∧ ([("x", ResolvedShaderUniformValue.Float32Asset 7),
      ("y", ResolvedShaderUniformValue.Float32 9)].map Prod.fst
      = [("x", ShaderUniformValue.Float32Asset 0),
         ("y", ShaderUniformValue.Float32 9)].map Prod.fst
    ∧ [("x", ResolvedShaderUniformValue.Float32Asset 7),
       ("y", ResolvedShaderUniformValue.Float32 9)].length
      = [("x", ShaderUniformValue.Float32Asset 0),
         ("y", ShaderUniformValue.Float32 9)].length) := by
  have h : resolve 1
      ⟨fun _ => Except.ok 7, fun _ => Except.error "u32", fun _ => Except.error "usize",
       fun _ => Except.error "tex", fun _ => Except.error "buf", fun _ => Except.error "bundle"⟩
      [("x", ShaderUniformValue.Float32Asset 0), ("y", ShaderUniformValue.Float32 9)]
      = Except.ok [("x", ResolvedShaderUniformValue.Float32Asset 7),
                   ("y", ResolvedShaderUniformValue.Float32 9)] := by
    simp [resolve, ShaderUniformHolder.resolve, ShaderUniformValue.resolve, Except.map]
  exact ⟨h, resolve_ok_names _ _ _ _ h⟩

/-- C7: `resolve` succeeds exactly when every holder's resolution succeeds;
when the first failing holder in input order fails with error `e` (all
earlier holders succeeding), the whole resolution returns exactly that
error, carrying no partial result. -/
theorem resolve_fail_fast (fuel : Nat) (ctx : Context) (us : List ShaderUniformHolder) :
    ((resolve fuel ctx us).isOk = true
      ↔ ∀ u ∈ us, (ShaderUniformHolder.resolve fuel ctx u).isOk = true)
  ∧ (∀ pre u post e, us = pre ++ u :: post →
      (∀ p ∈ pre, (ShaderUniformHolder.resolve fuel ctx p).isOk = true) →
      ShaderUniformHolder.resolve fuel ctx u = Except.error e →
      resolve fuel ctx us = Except.error e) := by
  constructor
  · induction us with
    | nil => simp [resolve, Except.isOk, Except.toBool]
    | cons u t ih =>
        have hstep : (resolve fuel ctx (u :: t)).isOk = true
            ↔ ((ShaderUniformHolder.resolve fuel ctx u).isOk = true
                ∧ (resolve fuel ctx t).isOk = true) := by
          rcases hr : ShaderUniformHolder.resolve fuel ctx u with e | r <;>
            rcases hrs : resolve fuel ctx t with e2 | rs2 <;>
              simp [resolve, hr, hrs, Except.isOk, Except.toBool]
        rw [hstep, ih, List.forall_mem_cons]
  · intro pre u post e hsplit hpre hu
    subst hsplit
    induction pre with
    | nil =>
        simp only [List.nil_append, resolve]
        rw [hu]
    | cons p pre2 ih =>
        have hp : (ShaderUniformHolder.resolve fuel ctx p).isOk = true :=
          hpre p (by simp)
        rcases hpr : ShaderUniformHolder.resolve fuel ctx p with e2 | r
        · rw [hpr] at hp
          simp [Except.isOk, Except.toBool] at hp
        · have ihres := ih (fun q hq => hpre q (by simp [hq]))
          simp only [List.cons_append, resolve]
          rw [hpr, ihres]

/-- C7 witness: with a failing `u32` asset in second position after a
succeeding holder, `resolve` returns exactly that error. -/
theorem resolve_fail_fast_witness :
    (∀ p ∈ [(("a", ShaderUniformValue.Float32 1) : ShaderUniformHolder)],
      (ShaderUniformHolder.resolve 1
        ⟨fun _ => Except.ok 7, fun _ => Except.error "boom", fun _ => Except.error "usize",
         fun _ => Except.error "tex", fun _ => Except.error "buf", fun _ => Except.error "bundle"⟩
        p).isOk = true)
  ∧ resolve 1
      ⟨fun _ => Except.ok 7, fun _ => Except.error "boom", fun _ => Except.error "usize",
       fun _ => Except.error "tex", fun _ => Except.error "buf", fun _ => Except.error "bundle"⟩
      [("a", ShaderUniformValue.Float32 1), ("b", ShaderUniformValue.Uint32Asset 0),
       ("c", ShaderUniformValue.Int32 3)]
      = Except.error "boom" := by
  have hpre : ∀ p ∈ [(("a", ShaderUniformValue.Float32 1) : ShaderUniformHolder)],
      (ShaderUniformHolder.resolve 1
        ⟨fun _ => Except.ok 7, fun _ => Except.error "boom", fun _ => Except.error "usize",
         fun _ => Except.error "tex", fun _ => Except.error "buf", fun _ => Except.error "bundle"⟩
        p).isOk = true := by
    simp [ShaderUniformHolder.resolve, ShaderUniformValue.resolve, Except.map, Except.isOk, Except.toBool]
  refine ⟨hpre, ?_⟩
  exact (resolve_fail_fast 1 _ _).2
    [("a", ShaderUniformValue.Float32 1)] ("b", ShaderUniformValue.Uint32Asset 0)
    [("c", ShaderUniformValue.Int32 3)] "boom" rfl hpre
    (by simp [ShaderUniformHolder.resolve, ShaderUniformValue.resolve, Except.map])

/-! ## Binder theorems (C2, C8, C9) -/

theorem process_binding_dst_set (uniforms : String → Option ResolvedShaderUniformValue)
    (ds : Nat) (st st2 : BinderState) (b : ReflDescriptorBinding)
    (h : process_binding uniforms ds st b = some st2)
    (hall : st.ds_writes.all (fun w => w.dst_set == ds) = true) :
    st2.ds_writes.all (fun w => w.dst_set == ds) = true := by
  obtain ⟨bb, bt, bn, bl⟩ := b
  cases bt with
  | UniformBuffer =>
      simp only [process_binding] at h
      split at h
      · simp at h
      · simp only [Option.some.injEq] at h
        subst h
        simp [List.all_append, hall]
  | StorageImage =>
      simp only [process_binding] at h
      split at h
      · simp only [Option.some.injEq] at h
        subst h
        simp [List.all_append, hall]
      · simp only [Option.some.injEq] at h
        subst h
        exact hall
  | Unsupported =>
      simp only [process_binding, Option.some.injEq] at h
      subst h
      exact hall

theorem process_bindings_dst_set (uniforms : String → Option ResolvedShaderUniformValue)
    (ds : Nat) (bs : List ReflDescriptorBinding) (st st2 : BinderState)
    (h : process_bindings uniforms ds bs st = some st2)
    (hall : st.ds_writes.all (fun w => w.dst_set == ds) = true) :
    st2.ds_writes.all (fun w => w.dst_set == ds) = true := by
  induction bs generalizing st with
  | nil =>
      simp only [process_bindings, Option.some.injEq] at h
      subst h
      exact hall
  | cons bb bs ih =>
      simp only [process_bindings] at h
      split at h
      · simp at h
      · rename_i stx heq
        exact ih stx h (process_binding_dst_set uniforms ds st stx bb heq hall)

theorem update_go_dst_set (uniforms : String → Option ResolvedShaderUniformValue)
    (d0 : Nat) (rest : List Nat) (refl : List ReflDescriptorSet) (st st2 : BinderState)
    (h : update_descriptor_sets_go uniforms (d0 :: rest) refl st = some st2)
    (hall : st.ds_writes.all (fun w => w.dst_set == d0) = true) :
    st2.ds_writes.all (fun w => w.dst_set == d0) = true := by
  induction refl generalizing st with
  | nil =>
      simp only [update_descriptor_sets_go, Option.some.injEq] at h
      subst h
      exact hall
  | cons dset refl ih =>
      simp only [update_descriptor_sets_go, List.getElem?_cons_zero] at h
      split at h
      · simp at h
      · rename_i stx heq
        exact ih stx h (process_bindings_dst_set uniforms d0 dset.bindings st stx heq hall)

/-- C2: every descriptor write produced by `update_descriptor_sets` — for
every reflected descriptor set, uniform-buffer and storage-image writes
alike — has its destination set equal to the first element of the
`descriptor_sets` slice, even when the reflection enumerates more than one
descriptor set (`shader.rs:858` reads `descriptor_sets[0]` inside the
per-set loop, ignoring the set index).  Bindings of later reflected sets are
therefore written into set 0. -/
theorem update_descriptor_sets_dst_set_first
    (refl : List ReflDescriptorSet) (d0 : Nat) (rest : List Nat)
    (uniforms : String → Option ResolvedShaderUniformValue) (arena : UniformArena)
    (st2 : BinderState)
    (h : update_descriptor_sets refl (d0 :: rest) uniforms arena = some st2) :
    st2.ds_writes.all (fun w => w.dst_set == d0) = true :=
  update_go_dst_set uniforms d0 rest refl ⟨arena, [], [], []⟩ st2 h (by simp)

/-- C2 witness: a reflection with two descriptor sets (one storage-image
binding each) and descriptor-set slice `[10, 20]` produces two writes, both
with destination set 10 — the second reflected set's binding lands in set 10
as well, not in set 20. -/
theorem update_descriptor_sets_dst_set_first_witness :
    update_descriptor_sets
      [⟨[⟨0, ReflectDescriptorType.StorageImage, "a", ⟨0, []⟩⟩]⟩,
       ⟨[⟨1, ReflectDescriptorType.StorageImage, "b", ⟨0, []⟩⟩]⟩]
      [10, 20]
      (fun k => if k = "a" then some (ResolvedShaderUniformValue.TextureAsset ⟨⟨4, 4⟩, 30, 31⟩)
                else if k = "b" then some (ResolvedShaderUniformValue.TextureAsset ⟨⟨4, 4⟩, 40, 41⟩)
                else none)
      ⟨1, 0⟩
    = some ⟨⟨1, 0⟩,
            [⟨10, 0, VkDescriptorType.STORAGE_IMAGE, DescriptorWriteInfo.ImageInfo 30⟩,
             ⟨10, 1, VkDescriptorType.STORAGE_IMAGE, DescriptorWriteInfo.ImageInfo 40⟩],
            [], []⟩
  ∧ ([⟨10, 0, VkDescriptorType.STORAGE_IMAGE, DescriptorWriteInfo.ImageInfo 30⟩,
      (⟨10, 1, VkDescriptorType.STORAGE_IMAGE, DescriptorWriteInfo.ImageInfo 40⟩ :
        WriteDescriptorSet)].all (fun w => w.dst_set == 10) = true) := by
  have h : update_descriptor_sets
      [⟨[⟨0, ReflectDescriptorType.StorageImage, "a", ⟨0, []⟩⟩]⟩,
       ⟨[⟨1, ReflectDescriptorType.StorageImage, "b", ⟨0, []⟩⟩]⟩]
      [10, 20]
      (fun k => if k = "a" then some (ResolvedShaderUniformValue.TextureAsset ⟨⟨4, 4⟩, 30, 31⟩)
                else if k = "b" then some (ResolvedShaderUniformValue.TextureAsset ⟨⟨4, 4⟩, 40, 41⟩)
                else none)
      ⟨1, 0⟩
    = some ⟨⟨1, 0⟩,
            [⟨10, 0, VkDescriptorType.STORAGE_IMAGE, DescriptorWriteInfo.ImageInfo 30⟩,
             ⟨10, 1, VkDescriptorType.STORAGE_IMAGE, DescriptorWriteInfo.ImageInfo 40⟩],
            [], []⟩ := by decide
  exact ⟨h, update_descriptor_sets_dst_set_first _ 10 [20] _ ⟨1, 0⟩ _ h⟩

theorem copy_into_replicate (s o : Nat) (bytes : List Nat) (h : o + bytes.length ≤ s) :
    copy_into (List.replicate s (none : Option Nat)) o bytes
      = List.replicate o (none : Option Nat) ++ bytes.map some
          ++ List.replicate (s - (o + bytes.length)) (none : Option Nat) := by
  rw [copy_into, List.take_replicate, List.drop_replicate, Nat.min_eq_left (by omega)]

/-- C8: for a reflection with one uniform block of byte size `s` holding the
single 4-byte member `"x"` at offset `o`, and a flat map binding `"x"` to a
float with bit pattern `b`, the binder allocates an `s`-byte arena region,
writes exactly the 4 native-order bytes of `b` at offset `o` (all other
bytes untouched), and produces exactly one `UNIFORM_BUFFER_DYNAMIC` write
with the arena-provided dynamic offset (a `Nat`, hence non-negative).
A float value against a member whose declared size is not 4, or a value
kind the binder does not recognize for a member, makes the whole call fail
(the Rust code panics in `copy_from_slice`/`unimplemented!()`). -/
theorem update_descriptor_sets_uniform_block (o s nb b d sz : Nat) (a : UniformArena)
    (v : ResolvedShaderUniformValue) :
    (o + 4 ≤ s →
      update_descriptor_sets
        [⟨[⟨nb, ReflectDescriptorType.UniformBuffer, "block0", ⟨s, [⟨"x", o, 4⟩]⟩⟩]⟩]
        [d] (fun k => if k = "x" then some (ResolvedShaderUniformValue.Float32 b) else none) a
      = some ⟨⟨a.buffer, a.cursor + s⟩,
              [⟨d, nb, VkDescriptorType.UNIFORM_BUFFER_DYNAMIC,
                DescriptorWriteInfo.BufferInfo a.buffer s⟩],
              [a.cursor],
              [(a.cursor, List.replicate o none ++ (to_ne_bytes b).map some
                  ++ List.replicate (s - (o + 4)) none)]⟩)
  ∧ (sz ≠ 4 →
      update_descriptor_sets
        [⟨[⟨nb, ReflectDescriptorType.UniformBuffer, "block0", ⟨s, [⟨"x", o, sz⟩]⟩⟩]⟩]
        [d] (fun k => if k = "x" then some (ResolvedShaderUniformValue.Float32 b) else none) a
      = none)
  ∧ (recognized_block_value v = false →
      update_descriptor_sets
        [⟨[⟨nb, ReflectDescriptorType.UniformBuffer, "block0", ⟨s, [⟨"x", o, 4⟩]⟩⟩]⟩]
        [d] (fun k => if k = "x" then some v else none) a
      = none) := by
  refine ⟨?_, ?_, ?_⟩
  · intro h
    simp [update_descriptor_sets, update_descriptor_sets_go, process_bindings,
      process_binding, UniformArena.allocate, write_block_members, write_member, h,
      to_ne_bytes]
    simpa using copy_into_replicate s o
      [b % 256, b / 256 % 256, b / 65536 % 256, b / 16777216 % 256] (by simp; omega)
  · intro hsz
    by_cases hss : o + sz ≤ s <;>
      simp [update_descriptor_sets, update_descriptor_sets_go, List.getElem?_cons_zero,
        process_bindings, process_binding, UniformArena.allocate, write_block_members,
        write_member, to_ne_bytes, hss, hsz, Ne.symm hsz]
  · intro hv
    by_cases hss : o + 4 ≤ s <;>
      cases v <;>
        simp_all [update_descriptor_sets, update_descriptor_sets_go, List.getElem?_cons_zero,
          process_bindings, process_binding, UniformArena.allocate, write_block_members,
          write_member, recognized_block_value]

/-- C8 witness: with block size 4, member `"x"` at offset 0 and the map
`{"x" ↦ 3.5f32}` (bit pattern `0x40600000 = 1080033280`), exactly the four
bytes `[0x00, 0x00, 0x60, 0x40]` — the little-endian IEEE-754 encoding of
3.5 — are written at offset 0, with one dynamic-uniform write at offset 0;
a float against an 8-byte member and an unrecognized `Uint32` value are
fatal. -/
theorem update_descriptor_sets_uniform_block_witness :
    update_descriptor_sets
      [⟨[⟨0, ReflectDescriptorType.UniformBuffer, "block0", ⟨4, [⟨"x", 0, 4⟩]⟩⟩]⟩] [7]
      (fun k => if k = "x" then some (ResolvedShaderUniformValue.Float32 1080033280) else none)
      ⟨1, 0⟩
    = some ⟨⟨1, 4⟩,
            [⟨7, 0, VkDescriptorType.UNIFORM_BUFFER_DYNAMIC,
              DescriptorWriteInfo.BufferInfo 1 4⟩],
            [0], [(0, [some 0, some 0, some 96, some 64])]⟩
  ∧ update_descriptor_sets
      [⟨[⟨0, ReflectDescriptorType.UniformBuffer, "block0", ⟨4, [⟨"x", 0, 8⟩]⟩⟩]⟩] [7]
      (fun k => if k = "x" then some (ResolvedShaderUniformValue.Float32 1080033280) else none)
      ⟨1, 0⟩ = none
  ∧ update_descriptor_sets
      [⟨[⟨0, ReflectDescriptorType.UniformBuffer, "block0", ⟨4, [⟨"x", 0, 4⟩]⟩⟩]⟩] [7]
      (fun k => if k = "x" then some (ResolvedShaderUniformValue.Uint32 5) else none)
      ⟨1, 0⟩ = none := by
  obtain ⟨hA, hB, hC⟩ :=
    update_descriptor_sets_uniform_block 0 4 0 1080033280 7 8 ⟨1, 0⟩
      (ResolvedShaderUniformValue.Uint32 5)
  refine ⟨?_, hB (by decide), hC (by decide)⟩
  rw [hA (by decide)]
  decide

/-- C9: for a reflection with one storage-image binding named `nm`: if the
flat map holds a texture asset under `nm`, the binder produces exactly one
`STORAGE_IMAGE` write referencing that texture's view (no offsets, no arena
traffic); if the map holds no texture-asset value under `nm`, the binding is
left unwritten and the call still succeeds with no writes at all. -/
theorem update_descriptor_sets_storage_image (nb d : Nat) (nm : String)
    (bl : ReflBlockVariable) (rest : List Nat)
    (uniforms : String → Option ResolvedShaderUniformValue)
    (a : UniformArena) (t : Texture) :
    (uniforms nm = some (ResolvedShaderUniformValue.TextureAsset t) →
      update_descriptor_sets [⟨[⟨nb, ReflectDescriptorType.StorageImage, nm, bl⟩]⟩]
        (d :: rest) uniforms a
      = some ⟨a, [⟨d, nb, VkDescriptorType.STORAGE_IMAGE,
                   DescriptorWriteInfo.ImageInfo t.view⟩], [], []⟩)
  ∧ (holds_texture_under uniforms nm = false →
      update_descriptor_sets [⟨[⟨nb, ReflectDescriptorType.StorageImage, nm, bl⟩]⟩]
        (d :: rest) uniforms a
      = some ⟨a, [], [], []⟩) := by
  constructor
  · intro h
    simp [update_descriptor_sets, update_descriptor_sets_go, List.getElem?_cons_zero,
      process_bindings, process_binding, h]
  · intro h
    rcases hu : uniforms nm with _ | val
    · simp [update_descriptor_sets, update_descriptor_sets_go, List.getElem?_cons_zero,
        process_bindings, process_binding, hu]
    · rw [holds_texture_under, hu] at h
      cases val <;>
        simp_all [update_descriptor_sets, update_descriptor_sets_go, List.getElem?_cons_zero,
          process_bindings, process_binding, hu]

/-- C9 witness: a storage-image binding named `"outputTex"` with a texture
of view 55 bound under that name yields exactly one storage-image write
referencing view 55; with an empty map, no write is produced and the call
still succeeds. -/
theorem update_descriptor_sets_storage_image_witness :
    ((fun k => if k = "outputTex"
        then some (ResolvedShaderUniformValue.TextureAsset ⟨⟨8, 8⟩, 55, 56⟩) else none)
      "outputTex" = some (ResolvedShaderUniformValue.TextureAsset ⟨⟨8, 8⟩, 55, 56⟩))
  ∧ update_descriptor_sets [⟨[⟨2, ReflectDescriptorType.StorageImage, "outputTex", ⟨0, []⟩⟩]⟩]
      [9]
      (fun k => if k = "outputTex"
        then some (ResolvedShaderUniformValue.TextureAsset ⟨⟨8, 8⟩, 55, 56⟩) else none)
      ⟨1, 0⟩
    = some ⟨⟨1, 0⟩, [⟨9, 2, VkDescriptorType.STORAGE_IMAGE,
                     DescriptorWriteInfo.ImageInfo 55⟩], [], []⟩
  ∧ update_descriptor_sets [⟨[⟨2, ReflectDescriptorType.StorageImage, "outputTex", ⟨0, []⟩⟩]⟩]
      [9] (fun _ => none) ⟨1, 0⟩
    = some ⟨⟨1, 0⟩, [], [], []⟩ := by
  refine ⟨rfl, ?_, ?_⟩
  · exact (update_descriptor_sets_storage_image 2 9 "outputTex" ⟨0, []⟩ []
      (fun k => if k = "outputTex"
        then some (ResolvedShaderUniformValue.TextureAsset ⟨⟨8, 8⟩, 55, 56⟩) else none)
      ⟨1, 0⟩ ⟨⟨8, 8⟩, 55, 56⟩).1 rfl
  · exact (update_descriptor_sets_storage_image 2 9 "outputTex" ⟨0, []⟩ []
      (fun _ => none) ⟨1, 0⟩ ⟨⟨8, 8⟩, 55, 56⟩).2 rfl

end Rendertoy
